import Mathlib

/-!
# Verification of the Savoo multi-currency accounting engine

A shallow embedding, in Lean 4, of the currency-rate, conversion, budget
aggregation, notification, and savings-goal logic of `backend/savoo_api.py`,
together with theorems settling the specification claims about it.

Modelling conventions:
* Python floats are modelled as exact rationals (`ℚ`).
* Python `dict` values are modelled as association lists built with an
  insert-or-replace operation (`dinsert`) that mirrors `d[k] = v`.
* JSON payloads are modelled at the shape documented for them (the cache file
  is an object with optional `fetched_at`/`rates` members; rate-source items
  are objects with optional `code`/`mid` members); a member whose value cannot
  be converted by `float(...)` is modelled as `Option.none` on the value side.
* I/O outcomes (file readability, JSON validity, HTTP success/failure,
  timestamp parsing) are modelled as fields of an `Env` record; every Python
  exception site that `savoo_api.py` catches corresponds to an `Option`/field
  case, so the embedded functions are total.
* `datetime.utcnow().isoformat()` and `date.today().isoformat()` are modelled
  as readouts of one coherent clock.
-/

namespace Savoo

/-- Python `str.upper()` (ASCII), defined structurally on the character list
so that it computes by kernel reduction. -/
def pyUpper (s : String) : String := ⟨s.data.map Char.toUpper⟩

/-- Python `str.strip()`: drop leading and trailing whitespace. -/
def pyStrip (s : String) : String :=
  ⟨((s.data.dropWhile Char.isWhitespace).reverse.dropWhile Char.isWhitespace).reverse⟩

/-- Python slicing `s[:n]`. -/
def pyTake (s : String) (n : Nat) : String := ⟨s.data.take n⟩

/-- Python dict assignment `d[k] = v` on an association list: replaces the
value in place when the key is present, otherwise appends the new binding
(Python dicts preserve insertion order). -/
def dinsert (d : List (String × ℚ)) (k : String) (v : ℚ) : List (String × ℚ) :=
  match d with
  | [] => [(k, v)]
  | (k0, v0) :: rest => if k0 = k then (k, v) :: rest else (k0, v0) :: dinsert rest k v

/-- Dictionary lookup on an association list (first binding wins). -/
def dlookup (d : List (String × ℚ)) (k : String) : Option ℚ :=
  match d with
  | [] => none
  | (k0, v0) :: rest => if k0 = k then some v0 else dlookup rest k

/-- Keys of an association list, in order. -/
def dkeys (d : List (String × ℚ)) : List String := d.map Prod.fst

/-- One row of the `currency_rates` table. -/
structure RateRow where
  code : String
  rate : ℚ
  fetched_at : String
deriving DecidableEq, Repr

/-- The `currency_rates` table. -/
abbrev RateStore := List RateRow

/-- One iteration of the sanitisation loop of `_store_currency_rates`:
skip falsy codes and values `float` cannot convert (modelled as `none`),
otherwise `sanitized[code.upper()] = float(value)`. -/
def sanitizeStep (d : List (String × ℚ)) (p : String × Option ℚ) :
    List (String × ℚ) :=
  if p.1 = "" then d
  else
    match p.2 with
    | some q => dinsert d (pyUpper p.1) q
    | none => d

/-- The sanitisation loop of `_store_currency_rates`, starting from the seed
dict `{'PLN': 1.0}`. -/
def sanitizeRates (rates : List (String × Option ℚ)) : List (String × ℚ) :=
  rates.foldl sanitizeStep [("PLN", 1)]

/-- Embedding of `_store_currency_rates`: clears the `currency_rates` table
and inserts one row per sanitised dict entry, all stamped `fetched_at`. -/
def store_currency_rates (rates : List (String × Option ℚ)) (fetched_at : String) :
    RateStore :=
  (sanitizeRates rates).map (fun p => ⟨p.1, p.2, fetched_at⟩)

/-- The rate-cache JSON document, at its documented shape
`{"fetched_at": ..., "rates": {...}}`.  `truthy` is the Python truthiness of
the loaded dict; `fetched_at`/`rates` model `.get(...)` results, with `none`
covering an absent or null member. -/
structure Cache where
  truthy : Bool
  fetched_at : Option String
  rates : Option (List (String × Option ℚ))
deriving Repr

/-- `cache_data.get('rates') or {}`. -/
def cacheRates (c : Cache) : List (String × Option ℚ) := c.rates.getD []

/-- One item of the rate-source payload's `rates` array, at its documented
shape: `code` models `.get('code')` (with `none` for absent/null/falsy→
see `extractPairs`), `mid` models `.get('mid')` where the outer `Option` is
presence/non-null and the inner `Option` is `float(...)` convertibility. -/
structure FetchItem where
  code : Option String
  mid : Option (Option ℚ)
deriving Repr

/-- The extraction loop of `ensure_currency_rates` before dict insertion:
keeps items with a truthy `code` and a present, non-null `mid`. -/
def extractPairs (raw : List FetchItem) : List (String × Option ℚ) :=
  raw.filterMap
    (fun it =>
      match it.code, it.mid with
      | some c, some v => if c = "" then none else some (c, v)
      | _, _ => none)

/-- The dict `extracted_rates` built by `ensure_currency_rates` from the
rate-source payload (`extracted_rates[code.upper()] = float(value)`). -/
def extractedRates (raw : List FetchItem) : List (String × ℚ) :=
  (extractPairs raw).foldl
    (fun d p =>
      match p.2 with
      | some q => dinsert d (pyUpper p.1) q
      | none => d)
    []

/-- Python `x or default` for an optional string (`None` and `""` are falsy). -/
def pyOrStr (o : Option String) (d : String) : String :=
  match o with
  | none => d
  | some s => if s = "" then d else s

/-- The environment of one `ensure_currency_rates` call: every I/O outcome
the function's exception handlers distinguish.
* `cacheLoad = none` models an absent, unreadable or JSON-invalid cache file
  (`os.path.exists` false, `OSError`, `json.JSONDecodeError`).
* `parseIso` models `datetime.fromisoformat` (result in seconds).
* `now` is `datetime.utcnow()` in seconds; `nowIso` its `isoformat()`.
* `fetch = none` models any exception while fetching/parsing the live source
  (network error, non-2xx via `raise_for_status`, malformed payload);
  `fetch = some raw` is the `raw_rates` array of a successful fetch. -/
structure Env where
  forceRefresh : Bool
  cacheLoad : Option Cache
  parseIso : String → Option Int
  now : Int
  nowIso : String
  fetch : Option (List FetchItem)

/-- `CURRENCY_CACHE_TTL = timedelta(hours=24)`, in seconds. -/
def CURRENCY_CACHE_TTL : Int := 24 * 3600

/-- The cache data a call works with: the file is only consulted when
`force_refresh` is false. -/
def envCacheData (env : Env) : Option Cache :=
  if env.forceRefresh then none else env.cacheLoad

/-- Whether the loaded cache dict is truthy (`if cache_data:`). -/
def envCacheTruthy (env : Env) : Bool :=
  match envCacheData env with
  | some c => c.truthy
  | none => false

/-- The freshness test on a loaded cache: `fetched_at` truthy, parseable,
and `now - cache_timestamp <= CURRENCY_CACHE_TTL`. -/
def cacheFresh (env : Env) (c : Cache) : Bool :=
  match c.fetched_at with
  | none => false
  | some s =>
      if s = "" then false
      else
        match env.parseIso s with
        | none => false
        | some t => decide (env.now - t ≤ CURRENCY_CACHE_TTL)

/-- The live-fetch phase of `ensure_currency_rates`: on success store the
extracted rates (the cache-file write, whose failure is only logged, does not
affect the rate store); on failure push the loaded cache's rates if the cache
dict is truthy, else leave the store untouched. -/
def fetchPhase (env : Env) (store : RateStore) : RateStore :=
  match env.fetch with
  | some raw =>
      store_currency_rates
        ((extractedRates raw).map (fun p => (p.1, some p.2))) env.nowIso
  | none =>
      match envCacheData env with
      | some c =>
          if c.truthy then
            store_currency_rates (cacheRates c) (pyOrStr c.fetched_at env.nowIso)
          else store
      | none => store

/-- Embedding of `ensure_currency_rates`: serve from a fresh truthy cache
without fetching, otherwise run the live-fetch phase.  Total by construction:
every exception `savoo_api.py` catches is an `Env` case. -/
def ensure_currency_rates (env : Env) (store : RateStore) : RateStore :=
  match envCacheData env with
  | some c =>
      if c.truthy && cacheFresh env c then
        store_currency_rates (cacheRates c) (c.fetched_at.getD "")
      else fetchPhase env store
  | none => fetchPhase env store

/-- Rate lookup in the `currency_rates` table:
`SELECT rate_to_pln FROM currency_rates WHERE currency_code = ?`. -/
def storeLookup (store : RateStore) (code : String) : Option ℚ :=
  match store with
  | [] => none
  | r :: rest => if r.code = code then some r.rate else storeLookup rest code

/-- Embedding of `get_exchange_rate`: 1.0 for a falsy currency, 1.0 for the
base currency `PLN` before any refresh or table read, otherwise refresh the
store via `ensure_currency_rates` (no `force_refresh`) and look the uppercased
code up, defaulting to 1.0 when no row matches.  Returns the rate together
with the store as the call leaves it. -/
def get_exchange_rate (env : Env) (store : RateStore) (currency : String) :
    ℚ × RateStore :=
  if currency = "" then (1, store)
  else
    let c := pyUpper currency
    if c = "PLN" then (1, store)
    else
      let store2 := ensure_currency_rates { env with forceRefresh := false } store
      match storeLookup store2 c with
      | some r => (r, store2)
      | none => (1, store2)

/-- Embedding of `convert_amount`.  `amount = none` models a null amount;
the currency arguments keep Python's `(x or 'PLN').upper()` defaulting. -/
def convert_amount (env : Env) (store : RateStore) (amount : Option ℚ)
    (source_currency target_currency : Option String) : ℚ × RateStore :=
  match amount with
  | none => (0, store)
  | some a =>
      let source := pyUpper (pyOrStr source_currency "PLN")
      let target := pyUpper (pyOrStr target_currency "PLN")
      if source = target then (a, store)
      else
        let sr := get_exchange_rate env store source
        let tr := get_exchange_rate env sr.2 target
        if tr.1 = 0 then (a * sr.1, tr.2)
        else
          let amount_pln := a * sr.1
          if target = "PLN" then (amount_pln, tr.2)
          else (amount_pln / tr.1, tr.2)

/-- Embedding of `normalize_currency`: falsy input maps to the fallback,
otherwise trim and uppercase, with the fallback again covering a result that
trims to empty. -/
def normalize_currency (value : Option String) (fallback : String := "PLN") :
    String :=
  match value with
  | none => fallback
  | some s =>
      if s = "" then fallback
      else
        let n := pyUpper (pyStrip s)
        if n = "" then fallback else n

/-- Embedding of `convert_to_base`. -/
def convert_to_base (env : Env) (store : RateStore) (amount : ℚ)
    (currency : Option String) : ℚ × RateStore :=
  convert_amount env store (some amount) (some (normalize_currency currency)) (some "PLN")

/-! ## Budget notification (`maybe_send_budget_notification`)

Python strings are modelled as `List Char` here so that the `[:10]` slice of
the stamp is `List.take`.  The two clock readouts of the function,
`date.today().isoformat()` and `datetime.utcnow().isoformat()`, are modelled
as `today` and `today ++ 'T' :: clock` — one coherent clock. -/

/-- The budget dict fields `maybe_send_budget_notification` reads and writes.
`limit_amount`/`spent_amount` model `budget.get(...)` with `none` for an
absent or null member (`float(x or 0)` turns those into 0). -/
structure Budget where
  id : Nat
  limit_amount : Option ℚ
  spent_amount : Option ℚ
  last_notified_at : Option (List Char)
deriving DecidableEq, Repr

/-- `BUDGET_ALERT_THRESHOLD = 0.9`. -/
def BUDGET_ALERT_THRESHOLD : ℚ := 9 / 10

/-- Embedding of `maybe_send_budget_notification`: returns whether a
notification was emitted, together with the budget row as left in the
database (the `UPDATE budgets SET last_notified_at = ...` and the matching
dict write).  `today` is `date.today().isoformat()`, `clock` the time-of-day
part of `datetime.utcnow().isoformat()`. -/
def maybe_send_budget_notification (today clock : List Char) (b : Budget) :
    Bool × Budget :=
  let limit := b.limit_amount.getD 0
  let spent := b.spent_amount.getD 0
  if limit ≤ 0 then (false, b)
  else if ¬ (spent / limit ≥ BUDGET_ALERT_THRESHOLD ∨ spent > limit) then (false, b)
  else
    let lastHitsToday : Bool :=
      match b.last_notified_at with
      | none => false
      | some last => decide (last ≠ [] ∧ last.take 10 = today)
    if lastHitsToday then (false, b)
    else (true, { b with last_notified_at := some (today ++ 'T' :: clock) })

/-! ## Budget aggregation (`GET /budgets`) -/

/-- One `transactions` row as selected for budget aggregation, with the
columns relevant to the computation.  `converted_amount` is a column of the
table; the aggregation query does not select it, but the row model keeps it
so that claims about its (non-)use are statable. -/
structure TxnRow where
  budget_id : Option Int
  category_id : Option Int
  amount : Option ℚ
  currency : Option String
  converted_amount : Option ℚ
  occurred_on : Option String
deriving Repr

/-- A prepared transaction entry of the aggregation loop's `transactions`
list: parsed date (as an ordinal) plus the recomputed base amount. -/
structure BTxn where
  budget_id : Option Int
  category_id : Option Int
  occurred_on : Int
  amount_pln : ℚ
deriving DecidableEq, Repr

/-- The transaction-preparation loop of `GET /budgets`: slice
`(txn.get('occurred_on') or '')[:10]`, skip rows whose date does not parse
(`pd` models `datetime.fromisoformat(...).date()` as a day ordinal), and
recompute `amount_pln = convert_to_base(float(amount or 0), currency or
'PLN')`, threading the rate store through the conversion calls. -/
def prepareTxns (env : Env) (pd : String → Option Int) :
    List TxnRow → RateStore → List BTxn × RateStore
  | [], store => ([], store)
  | row :: rest, store =>
      match pd (pyTake (row.occurred_on.getD "") 10) with
      | none => prepareTxns env pd rest store
      | some d =>
          let conv := convert_to_base env store (row.amount.getD 0)
            (some (pyOrStr row.currency "PLN"))
          let tail := prepareTxns env pd rest conv.2
          (⟨row.budget_id, row.category_id, d, conv.1⟩ :: tail.1, tail.2)

/-- The `budgets` row fields the aggregation loop reads. -/
structure BudgetRow where
  id : Int
  category_id : Option Int
deriving Repr

/-- Python truthiness of an integer-or-null column (`None` and `0` falsy). -/
def truthyId (o : Option Int) : Bool :=
  match o with
  | none => false
  | some v => decide (v ≠ 0)

/-- The four accumulators of the per-budget transaction loop. -/
structure Acc where
  spent_pln : ℚ
  total_transactions : Nat
  fallback_spent_pln : ℚ
  fallback_total : Nat
deriving DecidableEq, Repr

/-- One iteration of the per-budget transaction loop. -/
def stepTxn (b : BudgetRow) (startD endD : Int) (acc : Acc) (t : BTxn) : Acc :=
  if t.occurred_on < startD ∨ endD < t.occurred_on then acc
  else if t.budget_id = some b.id then
    { acc with
      spent_pln := acc.spent_pln + t.amount_pln
      total_transactions := acc.total_transactions + 1 }
  else if truthyId b.category_id ∧ t.budget_id = none ∧ t.category_id = b.category_id then
    { acc with
      fallback_spent_pln := acc.fallback_spent_pln + t.amount_pln
      fallback_total := acc.fallback_total + 1 }
  else acc

/-- The per-budget spent computation of `GET /budgets`: run the loop, then
switch to the fallback sums when the matched sum is exactly zero and the
budget's category link is truthy.  Returns `(spent_pln, total_transactions)`
in base currency, before display conversion. -/
def budgetSpent (b : BudgetRow) (startD endD : Int) (txns : List BTxn) : ℚ × Nat :=
  let acc := txns.foldl (stepTxn b startD endD) ⟨0, 0, 0, 0⟩
  if acc.spent_pln = 0 ∧ truthyId b.category_id then
    (acc.fallback_spent_pln, acc.fallback_total)
  else (acc.spent_pln, acc.total_transactions)

/-- Whether a prepared transaction falls in the budget's effective window. -/
def inWindow (startD endD : Int) (t : BTxn) : Bool :=
  decide (¬ (t.occurred_on < startD ∨ endD < t.occurred_on))

/-- The in-window transactions matched to the budget by explicit linkage. -/
def matchedTxns (b : BudgetRow) (startD endD : Int) (txns : List BTxn) : List BTxn :=
  txns.filter (fun t => inWindow startD endD t && decide (t.budget_id = some b.id))

/-- The in-window unlinked transactions matched by the budget's category. -/
def fallbackTxns (b : BudgetRow) (startD endD : Int) (txns : List BTxn) : List BTxn :=
  txns.filter (fun t =>
    inWindow startD endD t && truthyId b.category_id &&
      decide (t.budget_id = none) && decide (t.category_id = b.category_id))

/-- Sum of prepared base amounts. -/
def sumPln (l : List BTxn) : ℚ := (l.map BTxn.amount_pln).sum

/-! ## Savings goals -/

/-- A savings goal together with its contribution ledger.  `current` is the
goal row's `current_amount`; `contribs` the `savings_goal_contributions`
rows for the goal, as `(id, amount)`. -/
structure GoalState where
  current : ℚ
  contribs : List (Nat × ℚ)
deriving DecidableEq, Repr

/-- First contribution row with the given id. -/
def contribLookup (l : List (Nat × ℚ)) (id : Nat) : Option ℚ :=
  match l with
  | [] => none
  | p :: rest => if p.1 = id then some p.2 else contribLookup rest id

/-- Replace the amount of the first contribution row with the given id. -/
def contribUpdate (l : List (Nat × ℚ)) (id : Nat) (a : ℚ) : List (Nat × ℚ) :=
  match l with
  | [] => []
  | p :: rest => if p.1 = id then (id, a) :: rest else p :: contribUpdate rest id a

/-- Remove the first contribution row with the given id. -/
def contribDelete (l : List (Nat × ℚ)) (id : Nat) : List (Nat × ℚ) :=
  match l with
  | [] => []
  | p :: rest => if p.1 = id then rest else p :: contribDelete rest id

/-- Sum of all recorded contribution amounts for the goal
(`SELECT COALESCE(SUM(amount), 0) FROM savings_goal_contributions ...`). -/
def contribSum (s : GoalState) : ℚ := (s.contribs.map Prod.snd).sum

/-- `POST /savings-goals`: a new goal row is inserted with
`current_amount = current_pln` (the converted request value) and, at that
point, no contribution rows. -/
def createGoal (init : ℚ) : GoalState := ⟨init, []⟩

/-- The `current_amount` branch of `PUT /savings-goals/<id>`: the goal row's
`current_amount` is assigned directly; contribution rows are untouched. -/
def setCurrentAmount (s : GoalState) (v : ℚ) : GoalState := { s with current := v }

/-- Inserting a contribution row plus the `AFTER INSERT` trigger
`trg_savings_goal_contributions_insert`:
`current_amount = current_amount + NEW.amount`. -/
def insertContribution (s : GoalState) (id : Nat) (a : ℚ) : GoalState :=
  ⟨s.current + a, s.contribs ++ [(id, a)]⟩

/-- Updating a contribution row plus the `AFTER UPDATE` trigger
`trg_savings_goal_contributions_update`:
`current_amount = current_amount - OLD.amount + NEW.amount` (no floor). -/
def updateContribution (s : GoalState) (id : Nat) (n : ℚ) : GoalState :=
  match contribLookup s.contribs id with
  | none => s
  | some o => ⟨s.current - o + n, contribUpdate s.contribs id n⟩

/-- Deleting a contribution row plus the `AFTER DELETE` trigger
`trg_savings_goal_contributions_delete`:
`current_amount = MAX(current_amount - OLD.amount, 0)`. -/
def deleteContribution (s : GoalState) (id : Nat) : GoalState :=
  match contribLookup s.contribs id with
  | none => s
  | some a => ⟨max (s.current - a) 0, contribDelete s.contribs id⟩

/-- A contribution-ledger operation. -/
inductive GoalOp where
  | insert (id : Nat) (a : ℚ)
  | update (id : Nat) (a : ℚ)
  | delete (id : Nat)
deriving DecidableEq, Repr

/-- Apply one ledger operation (row change plus its trigger). -/
def applyOp (s : GoalState) (op : GoalOp) : GoalState :=
  match op with
  | .insert id a => insertContribution s id a
  | .update id a => updateContribution s id a
  | .delete id => deleteContribution s id

/-- Apply a sequence of ledger operations. -/
def applyOps (s : GoalState) (ops : List GoalOp) : GoalState :=
  ops.foldl applyOp s

/-- The amount an operation writes, if any. -/
def opAmount (op : GoalOp) : Option ℚ :=
  match op with
  | .insert _ a => some a
  | .update _ a => some a
  | .delete _ => none

/-! ## Dictionary lemmas -/

theorem mem_dkeys_dinsert (d : List (String × ℚ)) (k v a) :
    a ∈ dkeys (dinsert d k v) ↔ a ∈ dkeys d ∨ a = k := by
  induction d with
  | nil => simp [dinsert, dkeys]
  | cons p rest ih =>
      obtain ⟨k0, v0⟩ := p
      by_cases h : k0 = k
      · subst h
        simp [dinsert, dkeys]
        tauto
      · simp only [dinsert, if_neg h]
        simp only [dkeys, List.map_cons, List.mem_cons] at *
        rw [ih]
        tauto

theorem nodup_dkeys_dinsert (d : List (String × ℚ)) (k v)
    (h : (dkeys d).Nodup) : (dkeys (dinsert d k v)).Nodup := by
  induction d with
  | nil => simp [dinsert, dkeys]
  | cons p rest ih =>
      obtain ⟨k0, v0⟩ := p
      simp only [dkeys, List.map_cons, List.nodup_cons] at h
      by_cases hk : k0 = k
      · subst hk
        simpa [dinsert, dkeys] using h
      · simp only [dinsert, if_neg hk, dkeys, List.map_cons, List.nodup_cons]
        refine ⟨?_, ih h.2⟩
        intro hmem
        rw [show (dinsert rest k v).map Prod.fst = dkeys (dinsert rest k v) from rfl,
          mem_dkeys_dinsert] at hmem
        rcases hmem with hmem | hmem
        · exact h.1 hmem
        · exact hk hmem

theorem dlookup_dinsert_ne (d : List (String × ℚ)) (k v k') (h : k' ≠ k) :
    dlookup (dinsert d k v) k' = dlookup d k' := by
  induction d with
  | nil => simp [dinsert, dlookup, Ne.symm h]
  | cons p rest ih =>
      obtain ⟨k0, v0⟩ := p
      by_cases hk : k0 = k
      · subst hk
        simp [dinsert, dlookup, h, Ne.symm h]
      · simp only [dinsert, if_neg hk, dlookup]
        by_cases hk' : k0 = k'
        · simp [hk']
        · simp [hk', ih]

/-! ## Sanitisation-fold lemmas -/

theorem nodup_dkeys_foldl_sanitizeStep (rates : List (String × Option ℚ)) :
    ∀ init, (dkeys init).Nodup → (dkeys (rates.foldl sanitizeStep init)).Nodup := by
  induction rates with
  | nil => intro init h; simpa using h
  | cons p rest ih =>
      intro init h
      simp only [List.foldl_cons]
      apply ih
      unfold sanitizeStep
      by_cases hc : p.1 = ""
      · simpa [hc] using h
      · cases hv : p.2 with
        | none => simpa [hc, hv] using h
        | some q =>
            simp only [hc, hv, if_neg hc]
            exact nodup_dkeys_dinsert _ _ _ h

theorem mem_dkeys_foldl_sanitizeStep (rates : List (String × Option ℚ)) (k : String) :
    ∀ init, k ∈ dkeys init → k ∈ dkeys (rates.foldl sanitizeStep init) := by
  induction rates with
  | nil => intro init h; simpa using h
  | cons p rest ih =>
      intro init h
      simp only [List.foldl_cons]
      apply ih
      unfold sanitizeStep
      by_cases hc : p.1 = ""
      · simpa [hc] using h
      · cases hv : p.2 with
        | none => simpa [hc, hv] using h
        | some q =>
            simp only [hc, hv, if_neg hc]
            exact (mem_dkeys_dinsert _ _ _ _).mpr (Or.inl h)

theorem dlookup_foldl_sanitizeStep (k : String) (rates : List (String × Option ℚ))
    (hk : ∀ p ∈ rates, p.1 = "" ∨ p.2 = none ∨ pyUpper p.1 ≠ k) :
    ∀ init, dlookup (rates.foldl sanitizeStep init) k = dlookup init k := by
  induction rates with
  | nil => intro init; simp
  | cons p rest ih =>
      intro init
      simp only [List.foldl_cons]
      have hrest : ∀ q ∈ rest, q.1 = "" ∨ q.2 = none ∨ pyUpper q.1 ≠ k := by
        intro q hq; exact hk q (List.mem_cons_of_mem _ hq)
      rw [ih hrest]
      unfold sanitizeStep
      rcases hk p (List.mem_cons_self _ _) with hc | hv | hu
      · simp [hc]
      · by_cases hc : p.1 = ""
        · simp [hc]
        · simp [hc, hv]
      · by_cases hc : p.1 = ""
        · simp [hc]
        · cases hv : p.2 with
          | none => simp [hc, hv]
          | some q =>
              simp only [hc, hv, if_neg hc]
              exact dlookup_dinsert_ne _ _ _ _ (Ne.symm hu)

/-- `storeLookup` on the rows built from a dict is `dlookup` on the dict. -/
theorem storeLookup_store_rows (l : List (String × ℚ)) (ts k) :
    storeLookup (l.map (fun p => ⟨p.1, p.2, ts⟩)) k = dlookup l k := by
  induction l with
  | nil => rfl
  | cons p rest ih =>
      by_cases h : p.1 = k
      · simp [storeLookup, dlookup, h]
      · simp [storeLookup, dlookup, h, ih]

/-- Codes of the stored rows are the keys of the sanitised dict. -/
theorem store_currency_rates_codes (rates ts) :
    (store_currency_rates rates ts).map RateRow.code = dkeys (sanitizeRates rates) := by
  simp [store_currency_rates, dkeys, List.map_map]

/-! ## Claims C2 and C1: rate refresh -/

/-- C2, counterexample: `_store_currency_rates` seeds `{'PLN': 1.0}` before
the sanitisation loop, so source data containing a numeric `PLN` entry
overwrites the seed — here the refreshed table carries `PLN ↦ 2`, not 1.0. -/
theorem c2_pln_pin_counterexample :
    storeLookup (store_currency_rates [("PLN", some 2)] "t") "PLN" = some 2
    ∧ (2 : ℚ) ≠ 1 := by
  constructor
  · rfl
  · norm_num

/-- C2, amended: every refresh leaves the table a full replacement of the
form `store_currency_rates data ts` (or untouched); such a table has exactly
one row per currency code and always contains a `PLN` row, whose rate is 1.0
whenever the source/cache data carries no entry with a truthy code
uppercasing to `PLN` and a float-convertible value (if it does, that value
wins). -/
theorem c2_base_currency_row :
    (∀ rates ts, ((store_currency_rates rates ts).map RateRow.code).Nodup
      ∧ "PLN" ∈ (store_currency_rates rates ts).map RateRow.code)
    ∧ (∀ rates ts, (∀ p ∈ rates, p.1 = "" ∨ p.2 = none ∨ pyUpper p.1 ≠ "PLN") →
        storeLookup (store_currency_rates rates ts) "PLN" = some 1)
    ∧ (∀ env store, ensure_currency_rates env store = store
        ∨ ∃ rates ts, ensure_currency_rates env store = store_currency_rates rates ts) := by
  refine ⟨fun rates ts => ⟨?_, ?_⟩, fun rates ts h => ?_, fun env store => ?_⟩
  · rw [store_currency_rates_codes]
    exact nodup_dkeys_foldl_sanitizeStep rates _ (by simp [dkeys])
  · rw [store_currency_rates_codes]
    exact mem_dkeys_foldl_sanitizeStep rates _ _ (by simp [dkeys])
  · rw [store_currency_rates, storeLookup_store_rows, sanitizeRates,
      dlookup_foldl_sanitizeStep _ _ h]
    rfl
  · unfold ensure_currency_rates fetchPhase
    cases envCacheData env with
    | none =>
        cases env.fetch with
        | none => exact Or.inl rfl
        | some raw => exact Or.inr ⟨_, _, rfl⟩
    | some c =>
        by_cases hf : c.truthy && cacheFresh env c
        · simp only [hf, if_true]
          exact Or.inr ⟨_, _, rfl⟩
        · simp only [hf, if_false]
          cases env.fetch with
          | some raw => exact Or.inr ⟨_, _, rfl⟩
          | none =>
              by_cases ht : c.truthy
              · simp only [ht, if_true]
                exact Or.inr ⟨_, _, rfl⟩
              · simp only [ht, if_false]
                exact Or.inl rfl

/-- C2, witness: a refresh whose data has no `PLN` entry pins `PLN ↦ 1.0`. -/
theorem c2_base_currency_row_witness :
    storeLookup (store_currency_rates [("EUR", some 4), ("usd", some (22/5))] "t") "PLN"
      = some 1 :=
  c2_base_currency_row.2.1 [("EUR", some 4), ("usd", some (22/5))] "t" (by decide)

/-- C1, counterexample: with `force_refresh = True` the cache file is never
loaded, so a live-fetch failure leaves the rate store untouched (here: empty,
no `EUR` row) even though a cache snapshot with an `EUR` rate exists — whereas
pushing that snapshot would have stored `EUR ↦ 4`. -/
theorem c1_force_refresh_counterexample :
    ensure_currency_rates
      { forceRefresh := true
        cacheLoad := some ⟨true, some "2020-01-01T00:00:00", some [("EUR", some 4)]⟩
        parseIso := fun _ => none
        now := 0
        nowIso := "2024-06-01T00:00:00"
        fetch := none } [] = []
    ∧ storeLookup ([] : RateStore) "EUR" = none
    ∧ storeLookup
        (store_currency_rates
          (cacheRates ⟨true, some "2020-01-01T00:00:00", some [("EUR", some 4)]⟩)
          "2020-01-01T00:00:00") "EUR" = some 4 := by
  refine ⟨rfl, rfl, by decide⟩

/-- C1, amended: `ensure_currency_rates` never raises (the embedding is total
because every exception site in the function is caught and modelled); on a
live-fetch failure the cache snapshot's rates are pushed into the rate store
only when `force_refresh` is false and a truthy snapshot was loaded; when
`force_refresh` is true, or no (truthy) snapshot was loaded, the rate store is
left unchanged — even if a stale snapshot exists on disk. -/
theorem c1_fetch_failure_fallback :
    ∀ (env : Env) (store : RateStore), env.fetch = none →
      ((env.forceRefresh = true ∨ envCacheTruthy env = false) →
        ensure_currency_rates env store = store)
      ∧ (∀ c : Cache, env.forceRefresh = false → env.cacheLoad = some c →
          c.truthy = true →
          ∃ ts, ensure_currency_rates env store = store_currency_rates (cacheRates c) ts) := by
  intro env store hfetch
  constructor
  · intro hcase
    unfold ensure_currency_rates fetchPhase
    rw [hfetch]
    rcases hcase with hforce | htruthy
    · have hdata : envCacheData env = none := by
        simp [envCacheData, hforce]
      rw [hdata]
    · cases hdata : envCacheData env with
      | none => rfl
      | some c =>
          have hct : c.truthy = false := by
            have := htruthy
            rw [envCacheTruthy, hdata] at this
            exact this
          simp [hct]
  · intro c hforce hload hct
    unfold ensure_currency_rates fetchPhase
    rw [hfetch]
    have hdata : envCacheData env = some c := by
      simp [envCacheData, hforce, hload]
    rw [hdata]
    by_cases hfresh : cacheFresh env c
    · simp [hct, hfresh]
    · simp [hct, hfresh]

/-- C1, witness: fetch failure with `force_refresh` false and a truthy stale
snapshot pushes the snapshot's rates. -/
theorem c1_fetch_failure_fallback_witness :
    ∃ ts, ensure_currency_rates
      { forceRefresh := false
        cacheLoad := some ⟨true, some "2020-01-01T00:00:00", some [("EUR", some 4)]⟩
        parseIso := fun _ => none
        now := 0
        nowIso := "2024-06-01T00:00:00"
        fetch := none } []
      = store_currency_rates
          (cacheRates ⟨true, some "2020-01-01T00:00:00", some [("EUR", some 4)]⟩) ts :=
  (c1_fetch_failure_fallback
    { forceRefresh := false
      cacheLoad := some ⟨true, some "2020-01-01T00:00:00", some [("EUR", some 4)]⟩
      parseIso := fun _ => none
      now := 0
      nowIso := "2024-06-01T00:00:00"
      fetch := none } [] rfl).2
    ⟨true, some "2020-01-01T00:00:00", some [("EUR", some 4)]⟩ rfl rfl rfl

/-! ## Claim C3: notification idempotency within a day -/

/-- C3: once `maybe_send_budget_notification` notifies and stamps
`last_notified_at` with the current timestamp, any subsequent sequential call
on the same calendar day — on the budget row carrying that stamp, with
`limit_amount`/`spent_amount` recomputed to anything — returns `False` and
leaves the row unchanged (no second notification, no re-stamp).  `today` is
the day's ISO date (10 characters); `clock1`/`clock2` the time-of-day parts
of the two calls' clock readouts. -/
theorem c3_at_most_one_notification_per_day
    (b b2 : Budget) (today clock1 clock2 : List Char)
    (hlen : today.length = 10)
    (hfirst : (maybe_send_budget_notification today clock1 b).1 = true)
    (hcarry : b2.last_notified_at
      = ((maybe_send_budget_notification today clock1 b).2).last_notified_at) :
    maybe_send_budget_notification today clock2 b2 = (false, b2) := by
  have hstamp : ((maybe_send_budget_notification today clock1 b).2).last_notified_at
      = some (today ++ 'T' :: clock1) := by
    unfold maybe_send_budget_notification at hfirst ⊢
    dsimp only at hfirst ⊢
    split_ifs at hfirst ⊢
    rfl
  rw [hstamp] at hcarry
  unfold maybe_send_budget_notification
  dsimp only
  split_ifs with h1 h2 h3
  all_goals try rfl
  exfalso
  apply h3
  rw [hcarry]
  dsimp only
  rw [decide_eq_true_eq]
  refine ⟨by simp, ?_⟩
  rw [← hlen, List.take_left]

/-- C3, witness: a budget over its limit notifies on the first call of the
day and is silenced on a later call the same day. -/
theorem c3_at_most_one_notification_per_day_witness :
    maybe_send_budget_notification ("2026-10-12".toList) ("07:00:00".toList)
      ((maybe_send_budget_notification ("2026-10-12".toList) ("03:00:00".toList)
        ⟨1, some 100, some 200, none⟩).2)
      = (false,
        (maybe_send_budget_notification ("2026-10-12".toList) ("03:00:00".toList)
          ⟨1, some 100, some 200, none⟩).2) := by
  apply c3_at_most_one_notification_per_day ⟨1, some 100, some 200, none⟩ _ _ _ _
    (by decide) ?_ rfl
  unfold maybe_send_budget_notification
  simp only [Option.getD_some]
  rw [if_neg (by decide : ¬ ((100 : ℚ) ≤ 0)),
    if_neg (not_not_intro (Or.inr (by decide : (200 : ℚ) > 100))),
    if_neg (by decide : ¬ (false = true))]

/-! ## Claims C4 and C5: conversion fail-open and zero-rate guard -/

/-- C4: `get_exchange_rate` returns 1.0 for a currency that is falsy or
uppercases to the base currency `PLN`, leaving the store untouched and
refreshing nothing (the result does not depend on the store or environment at
all); and it returns 1.0 whenever the refreshed table has no row for the
uppercased code — fail open, not an error. -/
theorem c4_rate_fail_open (env : Env) (store : RateStore) (currency : String) :
    (currency = "" ∨ pyUpper currency = "PLN" →
      get_exchange_rate env store currency = (1, store))
    ∧ (currency ≠ "" → pyUpper currency ≠ "PLN" →
        storeLookup (ensure_currency_rates { env with forceRefresh := false } store)
          (pyUpper currency) = none →
        (get_exchange_rate env store currency).1 = 1) := by
  constructor
  · intro hcase
    unfold get_exchange_rate
    rcases hcase with hc | hc
    · simp [hc]
    · by_cases he : currency = ""
      · simp [he]
      · simp [he, hc]
  · intro hne hnp hmiss
    unfold get_exchange_rate
    simp only [if_neg hne, if_neg hnp, hmiss]

/-- C4, witness: `"pln"` is served as 1.0 with the store untouched; an
unknown code `"XXX"` fails open to 1.0. -/
theorem c4_rate_fail_open_witness :
    get_exchange_rate
      { forceRefresh := false, cacheLoad := none, parseIso := fun _ => none
        now := 0, nowIso := "t", fetch := none }
      [⟨"EUR", 4, "t"⟩] "pln" = (1, [⟨"EUR", 4, "t"⟩])
    ∧ (get_exchange_rate
        { forceRefresh := false, cacheLoad := none, parseIso := fun _ => none
          now := 0, nowIso := "t", fetch := none }
        [⟨"EUR", 4, "t"⟩] "XXX").1 = 1 :=
  ⟨(c4_rate_fail_open _ [⟨"EUR", 4, "t"⟩] "pln").1 (Or.inr (by decide)),
   (c4_rate_fail_open _ [⟨"EUR", 4, "t"⟩] "XXX").2 (by decide) (by decide) (by decide)⟩

/-- C5: when the source and target currencies normalise to distinct codes and
the target's rate-to-base reads as 0, `convert_amount` returns the
base-currency amount `amount * rateToBase(source)` — the guard fires before
any division, so no division by zero is ever performed (the embedding is a
total function on ℚ). -/
theorem c5_zero_rate_guard (env : Env) (store : RateStore) (a : ℚ)
    (sc tc : Option String)
    (hne : pyUpper (pyOrStr sc "PLN") ≠ pyUpper (pyOrStr tc "PLN"))
    (hzero : (get_exchange_rate env
        (get_exchange_rate env store (pyUpper (pyOrStr sc "PLN"))).2
        (pyUpper (pyOrStr tc "PLN"))).1 = 0) :
    convert_amount env store (some a) sc tc
      = (a * (get_exchange_rate env store (pyUpper (pyOrStr sc "PLN"))).1,
         (get_exchange_rate env
           (get_exchange_rate env store (pyUpper (pyOrStr sc "PLN"))).2
           (pyUpper (pyOrStr tc "PLN"))).2) := by
  unfold convert_amount
  dsimp only
  rw [if_neg hne, if_pos hzero]

/-- C5, witness: converting 100 EUR to a currency stored with rate 0 yields
the base-currency amount without dividing. -/
theorem c5_zero_rate_guard_witness :
    convert_amount
      { forceRefresh := false, cacheLoad := none, parseIso := fun _ => none
        now := 0, nowIso := "t", fetch := none }
      [⟨"EUR", 1, "t"⟩, ⟨"USD", 0, "t"⟩] (some 100) (some "EUR") (some "USD")
      = (100, [⟨"EUR", 1, "t"⟩, ⟨"USD", 0, "t"⟩]) := by
  have h := c5_zero_rate_guard
    { forceRefresh := false, cacheLoad := none, parseIso := fun _ => none
      now := 0, nowIso := "t", fetch := none }
    [⟨"EUR", 1, "t"⟩, ⟨"USD", 0, "t"⟩] 100 (some "EUR") (some "USD")
    (by decide) (by decide)
  rw [h]
  have h1 : (get_exchange_rate
      { forceRefresh := false, cacheLoad := none, parseIso := fun _ => none
        now := 0, nowIso := "t", fetch := none }
      [⟨"EUR", 1, "t"⟩, ⟨"USD", 0, "t"⟩] (pyUpper (pyOrStr (some "EUR") "PLN"))).1
      = 1 := by decide
  rw [h1, mul_one]
  rfl

/-! ## Claim C6: matched-vs-fallback selection in budget aggregation -/

theorem foldl_stepTxn_eq (b : BudgetRow) (startD endD : Int) :
    ∀ (txns : List BTxn) (acc : Acc),
      txns.foldl (stepTxn b startD endD) acc
        = ⟨acc.spent_pln + sumPln (matchedTxns b startD endD txns),
           acc.total_transactions + (matchedTxns b startD endD txns).length,
           acc.fallback_spent_pln + sumPln (fallbackTxns b startD endD txns),
           acc.fallback_total + (fallbackTxns b startD endD txns).length⟩ := by
  intro txns
  induction txns with
  | nil => intro acc; simp [matchedTxns, fallbackTxns, sumPln]
  | cons t rest ih =>
      intro acc
      simp only [List.foldl_cons]
      rw [ih]
      by_cases hw : t.occurred_on < startD ∨ endD < t.occurred_on
      · have hwin : inWindow startD endD t = false := by
          simp [inWindow, hw]
        simp [stepTxn, matchedTxns, fallbackTxns, List.filter_cons, hwin, hw]
      · have hwin : inWindow startD endD t = true := by
          simp only [inWindow, decide_eq_true_eq]
          exact hw
        by_cases hm : t.budget_id = some b.id
        · have hnone : ¬ (t.budget_id = none) := by simp [hm]
          simp [stepTxn, matchedTxns, fallbackTxns, List.filter_cons, hwin, hw, hm,
            hnone, sumPln]
          constructor
          · ring
          · omega
        · by_cases h1 : truthyId b.category_id
          · by_cases h2 : t.budget_id = none
            · by_cases h3 : t.category_id = b.category_id
              · simp [stepTxn, matchedTxns, fallbackTxns, List.filter_cons, hwin, hw,
                  hm, h1, h2, h3, sumPln]
                constructor
                · ring
                · omega
              · simp [stepTxn, matchedTxns, fallbackTxns, List.filter_cons, hwin, hw,
                  hm, h1, h2, h3]
            · simp [stepTxn, matchedTxns, fallbackTxns, List.filter_cons, hwin, hw,
                hm, h1, h2]
          · simp [stepTxn, matchedTxns, fallbackTxns, List.filter_cons, hwin, hw,
              hm, h1]

/-- C6: in the per-budget aggregation, when the sum of in-window transactions
explicitly linked to the budget is exactly zero and the budget's category
link is truthy, the reported spent amount and transaction count come from the
fallback sums over in-window unlinked transactions of the same category; in
every other case the matched sums are used. -/
theorem c6_fallback_when_matched_zero (b : BudgetRow) (startD endD : Int)
    (txns : List BTxn) :
    (truthyId b.category_id = true → sumPln (matchedTxns b startD endD txns) = 0 →
      budgetSpent b startD endD txns
        = (sumPln (fallbackTxns b startD endD txns),
           (fallbackTxns b startD endD txns).length))
    ∧ (sumPln (matchedTxns b startD endD txns) ≠ 0 ∨ truthyId b.category_id = false →
      budgetSpent b startD endD txns
        = (sumPln (matchedTxns b startD endD txns),
           (matchedTxns b startD endD txns).length)) := by
  have hfold := foldl_stepTxn_eq b startD endD txns ⟨0, 0, 0, 0⟩
  constructor
  · intro hty hzero
    unfold budgetSpent
    rw [hfold]
    simp [hzero, hty]
  · intro hcase
    unfold budgetSpent
    rw [hfold]
    rcases hcase with h | h
    · simp [h]
    · simp [h]

/-- C6, witness: the legacy-data scenario — a budget with a category and no
transaction carrying its id falls back to the category-matched sum. -/
theorem c6_fallback_when_matched_zero_witness :
    budgetSpent ⟨1, some 2⟩ 0 200 [⟨none, some 2, 100, 50⟩] = (50, 1) := by
  have h := (c6_fallback_when_matched_zero ⟨1, some 2⟩ 0 200
    [⟨none, some 2, 100, 50⟩]).1 (by decide) (by simp [matchedTxns, sumPln])
  rw [h]
  simp [fallbackTxns, sumPln, inWindow, truthyId]

/-! ## Claim C7: stored `converted_amount` vs recomputation -/

/-- A transaction row with its `converted_amount` column erased. -/
def eraseConverted (r : TxnRow) : TxnRow := { r with converted_amount := none }

/-- C7, counterexample: the aggregation recomputes the base amount from
`amount`/`currency` and ignores the stored `converted_amount`.  A row with
`amount = 1` in the base currency but `converted_amount = 999` contributes 1,
not 999, to the budget's spent sum. -/
theorem c7_converted_amount_counterexample :
    (prepareTxns ⟨false, none, fun _ => none, 0, "now", none⟩
      (fun s => if s = "2026-01-15" then some 100 else none)
      [⟨some 1, none, some 1, some "PLN", some 999, some "2026-01-15"⟩] []).1
      = [⟨some 1, none, 100, 1⟩]
    ∧ budgetSpent ⟨1, none⟩ 0 200
        (prepareTxns ⟨false, none, fun _ => none, 0, "now", none⟩
          (fun s => if s = "2026-01-15" then some 100 else none)
          [⟨some 1, none, some 1, some "PLN", some 999, some "2026-01-15"⟩] []).1
      = (1, 1)
    ∧ (1 : ℚ) ≠ 999 := by
  refine ⟨by decide, ?_, by decide⟩
  have hp : (prepareTxns ⟨false, none, fun _ => none, 0, "now", none⟩
      (fun s => if s = "2026-01-15" then some 100 else none)
      [⟨some 1, none, some 1, some "PLN", some 999, some "2026-01-15"⟩] []).1
      = [⟨some 1, none, 100, 1⟩] := by decide
  rw [hp]
  simp [budgetSpent, stepTxn, inWindow, truthyId]

/-- C7, amended: in the budget aggregation of `GET /budgets`, every prepared
transaction's base-currency amount is recomputed via the conversion service
from the row's `amount` and `currency`; the stored `converted_amount` column
is never consulted (the aggregation query does not even select it), so the
prepared transactions are invariant under erasing that column. -/
theorem c7_amount_always_recomputed :
    (∀ (env : Env) (pd : String → Option Int) (rows : List TxnRow)
        (store : RateStore),
      prepareTxns env pd (rows.map eraseConverted) store
        = prepareTxns env pd rows store)
    ∧ (∀ (env : Env) (pd : String → Option Int) (row : TxnRow) (rest : List TxnRow)
        (store : RateStore) (d : Int),
        pd (pyTake (row.occurred_on.getD "") 10) = some d →
        prepareTxns env pd (row :: rest) store
          = (⟨row.budget_id, row.category_id, d,
              (convert_to_base env store (row.amount.getD 0)
                (some (pyOrStr row.currency "PLN"))).1⟩
              :: (prepareTxns env pd rest
                  (convert_to_base env store (row.amount.getD 0)
                    (some (pyOrStr row.currency "PLN"))).2).1,
             (prepareTxns env pd rest
               (convert_to_base env store (row.amount.getD 0)
                 (some (pyOrStr row.currency "PLN"))).2).2)) := by
  constructor
  · intro env pd rows
    induction rows with
    | nil => intro store; rfl
    | cons row rest ih =>
        intro store
        simp only [List.map_cons]
        unfold prepareTxns
        cases hp : pd (pyTake (row.occurred_on.getD "") 10) with
        | none =>
            have hp2 : pd (pyTake ((eraseConverted row).occurred_on.getD "") 10)
                = none := hp
            rw [hp2]
            exact ih store
        | some d =>
            have hp2 : pd (pyTake ((eraseConverted row).occurred_on.getD "") 10)
                = some d := hp
            rw [hp2]
            dsimp only [eraseConverted]
            rw [ih]
  · intro env pd row rest store d hp
    simp only [prepareTxns, hp]

/-- C7, witness: a row whose `converted_amount` is 999 is prepared with the
recomputed amount 5. -/
theorem c7_amount_always_recomputed_witness :
    prepareTxns ⟨false, none, fun _ => none, 0, "now", none⟩ (fun _ => some 42)
      [⟨some 1, some 2, some 5, some "PLN", some 999, some "2026-01-15"⟩] []
      = ([⟨some 1, some 2, 42, 5⟩], []) := by
  rw [c7_amount_always_recomputed.2 ⟨false, none, fun _ => none, 0, "now", none⟩
    (fun _ => some 42) ⟨some 1, some 2, some 5, some "PLN", some 999, some "2026-01-15"⟩
    [] [] 42 rfl]
  rfl

/-! ## Claims C8, C9, C10: savings-goal running total -/

/-- Sum of the recorded amounts after replacing the first row with a given id. -/
theorem contribUpdate_sum (l : List (Nat × ℚ)) (id : Nat) (n o : ℚ)
    (h : contribLookup l id = some o) :
    ((contribUpdate l id n).map Prod.snd).sum = (l.map Prod.snd).sum - o + n := by
  induction l with
  | nil => simp [contribLookup] at h
  | cons q rest ih =>
      by_cases hq : q.1 = id
      · rw [contribLookup, if_pos hq] at h
        rw [contribUpdate, if_pos hq]
        simp only [Option.some.injEq] at h
        rw [← h]
        simp
        ring
      · rw [contribLookup, if_neg hq] at h
        rw [contribUpdate, if_neg hq]
        simp only [List.map_cons, List.sum_cons, ih h]
        ring

/-- Sum of the recorded amounts after removing the first row with a given id. -/
theorem contribDelete_sum (l : List (Nat × ℚ)) (id : Nat) (a : ℚ)
    (h : contribLookup l id = some a) :
    ((contribDelete l id).map Prod.snd).sum = (l.map Prod.snd).sum - a := by
  induction l with
  | nil => simp [contribLookup] at h
  | cons q rest ih =>
      by_cases hq : q.1 = id
      · rw [contribLookup, if_pos hq] at h
        rw [contribDelete, if_pos hq]
        simp only [Option.some.injEq] at h
        rw [← h]
        simp only [List.map_cons, List.sum_cons]
        ring
      · rw [contribLookup, if_neg hq] at h
        rw [contribDelete, if_neg hq]
        simp only [List.map_cons, List.sum_cons, ih h]
        ring

/-- Rows surviving a replacement are the new row or old rows. -/
theorem mem_contribUpdate (l : List (Nat × ℚ)) (id : Nat) (n : ℚ)
    (p : Nat × ℚ) (h : p ∈ contribUpdate l id n) : p = (id, n) ∨ p ∈ l := by
  induction l with
  | nil => simp [contribUpdate] at h
  | cons q rest ih =>
      by_cases hq : q.1 = id
      · rw [contribUpdate, if_pos hq] at h
        rcases List.mem_cons.mp h with h1 | h1
        · exact Or.inl h1
        · exact Or.inr (List.mem_cons_of_mem _ h1)
      · rw [contribUpdate, if_neg hq] at h
        rcases List.mem_cons.mp h with h1 | h1
        · exact Or.inr (h1 ▸ List.mem_cons_self _ _)
        · rcases ih h1 with h2 | h2
          · exact Or.inl h2
          · exact Or.inr (List.mem_cons_of_mem _ h2)

/-- Rows surviving a removal were already present. -/
theorem mem_contribDelete (l : List (Nat × ℚ)) (id : Nat)
    (p : Nat × ℚ) (h : p ∈ contribDelete l id) : p ∈ l := by
  induction l with
  | nil => simp [contribDelete] at h
  | cons q rest ih =>
      by_cases hq : q.1 = id
      · rw [contribDelete, if_pos hq] at h
        exact List.mem_cons_of_mem _ h
      · rw [contribDelete, if_neg hq] at h
        rcases List.mem_cons.mp h with h1 | h1
        · exact h1 ▸ List.mem_cons_self _ _
        · exact List.mem_cons_of_mem _ (ih h1)

/-- The running-total invariant: the goal row's `current_amount` equals the
sum of its recorded contributions, all of which are nonnegative. -/
def GoalInv (s : GoalState) : Prop :=
  s.current = contribSum s ∧ ∀ p ∈ s.contribs, 0 ≤ p.2

/-- One trigger-backed ledger operation with a nonnegative amount preserves
the running-total invariant. -/
theorem GoalInv_applyOp (s : GoalState) (op : GoalOp)
    (hinv : GoalInv s) (hop : ∀ a, opAmount op = some a → 0 ≤ a) :
    GoalInv (applyOp s op) := by
  obtain ⟨hsum, hnn⟩ := hinv
  cases op with
  | insert id a =>
      constructor
      · simp [applyOp, insertContribution, contribSum, hsum]
      · intro p hp
        rcases List.mem_append.mp hp with h1 | h1
        · exact hnn p h1
        · rw [List.mem_singleton.mp h1]
          exact hop a rfl
  | update id a =>
      cases hlk : contribLookup s.contribs id with
      | none =>
          simp only [applyOp, updateContribution, hlk]
          exact ⟨hsum, hnn⟩
      | some o =>
          constructor
          · simp only [applyOp, updateContribution, hlk, contribSum]
            rw [contribUpdate_sum _ _ _ _ hlk]
            simp only [contribSum] at hsum
            rw [hsum]
          · intro p hp
            simp only [applyOp, updateContribution, hlk] at hp
            rcases mem_contribUpdate _ _ _ _ hp with h1 | h1
            · rw [h1]
              exact hop a rfl
            · exact hnn p h1
  | delete id =>
      cases hlk : contribLookup s.contribs id with
      | none =>
          simp only [applyOp, deleteContribution, hlk]
          exact ⟨hsum, hnn⟩
      | some a =>
          have hrest : ∀ p ∈ contribDelete s.contribs id, 0 ≤ p.2 := by
            intro p hp
            exact hnn p (mem_contribDelete _ _ _ hp)
          have hsum2 : ((contribDelete s.contribs id).map Prod.snd).sum
              = (s.contribs.map Prod.snd).sum - a := contribDelete_sum _ _ _ hlk
          have hnonneg : 0 ≤ (s.contribs.map Prod.snd).sum - a := by
            rw [← hsum2]
            apply List.sum_nonneg
            intro x hx
            rcases List.mem_map.mp hx with ⟨p, hp, rfl⟩
            exact hrest p hp
          constructor
          · simp only [applyOp, deleteContribution, hlk, contribSum]
            rw [hsum2]
            simp only [contribSum] at hsum
            rw [hsum]
            exact max_eq_left hnonneg
          · intro p hp
            simp only [applyOp, deleteContribution, hlk] at hp
            exact hrest p hp

/-- The invariant is preserved along any operation sequence. -/
theorem GoalInv_applyOps (ops : List GoalOp) :
    ∀ s : GoalState, GoalInv s →
      (∀ op ∈ ops, ∀ a, opAmount op = some a → 0 ≤ a) →
      GoalInv (applyOps s ops) := by
  induction ops with
  | nil => intro s hs _; exact hs
  | cons op rest ih =>
      intro s hs hops
      rw [applyOps, List.foldl_cons]
      exact ih _ (GoalInv_applyOp s op hs (hops op (List.mem_cons_self _ _)))
        (fun o ho => hops o (List.mem_cons_of_mem _ ho))

/-- C8, counterexample: creating a goal with a nonzero initial
`current_amount` (as `POST /savings-goals` allows) yields a stored running
total of 100 while no contribution rows exist, so the stored aggregate and
the derived sum disagree. -/
theorem c8_running_total_counterexample :
    (createGoal 100).current = 100 ∧ contribSum (createGoal 100) = 0
    ∧ (100 : ℚ) ≠ 0 :=
  ⟨rfl, rfl, by decide⟩

/-- C8, amended: for a goal created with initial `current_amount` 0 whose
`current_amount` is never directly reassigned (the `PUT /savings-goals`
current-amount branch), any sequence of contribution inserts, updates and
deletes with nonnegative amounts — the trigger-backed ledger operations —
keeps the stored `current_amount` equal to the sum of the recorded
contributions.  Goals created with a nonzero initial amount, or directly
reassigned, break the equality. -/
theorem c8_running_total_invariant (ops : List GoalOp)
    (hops : ∀ op ∈ ops, ∀ a, opAmount op = some a → 0 ≤ a) :
    (applyOps (createGoal 0) ops).current
      = contribSum (applyOps (createGoal 0) ops) :=
  (GoalInv_applyOps ops (createGoal 0)
    ⟨rfl, by intro p hp; simp [createGoal] at hp⟩ hops).1

/-- C8, witness: insert 5, update it to 2, then delete it — the stored total
tracks the contribution sum throughout. -/
theorem c8_running_total_invariant_witness :
    (applyOps (createGoal 0) [.insert 1 5, .update 1 2, .delete 1]).current
      = contribSum (applyOps (createGoal 0) [.insert 1 5, .update 1 2, .delete 1]) :=
  c8_running_total_invariant [.insert 1 5, .update 1 2, .delete 1]
    (by
      intro op hop a ha
      simp only [List.mem_cons, List.not_mem_nil, or_false] at hop
      rcases hop with rfl | rfl | rfl
      · simp only [opAmount, Option.some.injEq] at ha
        rw [← ha]; decide
      · simp only [opAmount, Option.some.injEq] at ha
        rw [← ha]; decide
      · simp [opAmount] at ha)

/-- C9: deleting a contribution of amount `A` recorded for a goal with
`current_amount = C` leaves `current_amount = max(C - A, 0)`, which is never
negative — even when `A > C`. -/
theorem c9_delete_clamped_at_zero (s : GoalState) (id : Nat) (a : ℚ)
    (h : contribLookup s.contribs id = some a) :
    (deleteContribution s id).current = max (s.current - a) 0
    ∧ 0 ≤ (deleteContribution s id).current := by
  unfold deleteContribution
  rw [h]
  exact ⟨rfl, le_max_right _ _⟩

/-- C9, witness: deleting a contribution of 10 from a goal holding 5 clamps
the total at the floor `max (5 - 10) 0`. -/
theorem c9_delete_clamped_at_zero_witness :
    (deleteContribution ⟨5, [(1, 10)]⟩ 1).current = max ((5 : ℚ) - 10) 0
    ∧ 0 ≤ (deleteContribution ⟨5, [(1, 10)]⟩ 1).current :=
  c9_delete_clamped_at_zero ⟨5, [(1, 10)]⟩ 1 10 rfl

/-- C10: updating a recorded contribution from old amount `O` to new amount
`N` sets the goal's `current_amount` to exactly `C - O + N` with no floor at
zero — in particular a state with `O - N > C` is driven negative, unlike the
delete path. -/
theorem c10_update_unclamped :
    (∀ (s : GoalState) (id : Nat) (o n : ℚ),
      contribLookup s.contribs id = some o →
      (updateContribution s id n).current = s.current - o + n)
    ∧ (updateContribution ⟨5, [(1, 10)]⟩ 1 2).current < 0 := by
  constructor
  · intro s id o n h
    unfold updateContribution
    rw [h]
  · have h1 : (updateContribution ⟨5, [(1, 10)]⟩ 1 2).current = 5 - 10 + 2 := rfl
    rw [h1]
    norm_num

/-- C10, witness: updating the 10-contribution of a goal holding 5 down to 2
sets the total to `5 - 10 + 2`. -/
theorem c10_update_unclamped_witness :
    (updateContribution ⟨5, [(1, 10)]⟩ 1 2).current = (5 : ℚ) - 10 + 2 :=
  c10_update_unclamped.1 ⟨5, [(1, 10)]⟩ 1 10 2 rfl

end Savoo
